import Mathlib

/-!
Verification development for the toki log forwarder (main.go, with the
sequential variant in a second source file).  The tool pulls documents from
an OpenSearch scroll and pushes them to Loki.  We shallowly embed:

  * the dynamically shaped JSON documents (Go `map[string]interface{}`),
  * the normalization done by `pushLogToLoki` (timestamp parsing, message
    fallback, label construction) together with `convertGraylogLevel`,
  * the cursor-paginated extraction loop of `queryAndPushLogsParallel`
    (main.go) and of `queryAndPushLogs` plus its caller `main`
    (sequential variant), driven by a finite trace of scripted responses.

Machine integers never overflow in the modelled ranges, so Nat and Int are
used directly.  Network effects are represented by explicit inputs: the
list of search responses, and a delivery function giving the success or
failure of each Loki push.
-/

namespace Toki

/-- JSON values as decoded by Go `encoding/json` into `interface{}`.
`num` stands for a `float64`, modelled by the exact rational value the
float denotes.  An object is a key/value list; Go maps have unique keys. -/
inductive Json where
  | null
  | bool (b : Bool)
  | num (q : Rat)
  | str (s : String)
  | arr (elems : List Json)
  | obj (fields : List (String × Json))

/-- A raw document, i.e. a Go `map[string]interface{}`. -/
abbrev Doc := List (String × Json)

/-- Lower hex digit, as Go prints in \u escapes. -/
def hexDigit (n : Nat) : String :=
  if n = 0 then "0" else if n = 1 then "1" else if n = 2 then "2"
  else if n = 3 then "3" else if n = 4 then "4" else if n = 5 then "5"
  else if n = 6 then "6" else if n = 7 then "7" else if n = 8 then "8"
  else if n = 9 then "9" else if n = 10 then "a" else if n = 11 then "b"
  else if n = 12 then "c" else if n = 13 then "d" else if n = 14 then "e"
  else "f"

/-- Escaping of one character in a Go `encoding/json` string: quote,
backslash, the named control escapes, other control characters as \u00xx,
and the default HTML escaping of angle brackets and ampersand. -/
def escapeChar (c : Char) : String :=
  if c = '"' then "\\\""
  else if c = '\\' then "\\\\"
  else if c = '\n' then "\\n"
  else if c = '\r' then "\\r"
  else if c = '\t' then "\\t"
  else if c = '<' then "\\u003c"
  else if c = '>' then "\\u003e"
  else if c = '&' then "\\u0026"
  else if c.toNat < 32 then
    "\\u00" ++ hexDigit (c.toNat / 16) ++ hexDigit (c.toNat % 16)
  else if c.toNat = 0x2028 then "\\u2028"
  else if c.toNat = 0x2029 then "\\u2029"
  else c.toString

/-- A JSON string literal as produced by Go `encoding/json`. -/
def jsonQuote (s : String) : String :=
  "\"" ++ String.join (s.data.map escapeChar) ++ "\""

/-- Least k with den dividing 10 ^ k, searched up to 20.  Every value we
format has a finite decimal expansion of that length. -/
def findDecExp (den : Nat) : Option Nat :=
  (List.range 21).find? (fun k => decide (den ∣ 10 ^ k))

/-- Left pad with zeros to width w. -/
def padZeros (w : Nat) (s : String) : String :=
  String.mk (List.replicate (w - s.length) '0') ++ s

/-- Go float64 formatting (shortest round trip) for the JSON values the
model uses: integers print with no fraction, other finite decimals print
sign, integer part, a dot and the minimal fraction.  Values with no finite
decimal expansion of length at most 20 do not arise from the documents the
claims evaluate; for totality they print as an exact fraction. -/
def formatGoNumber (q : Rat) : String :=
  if q.den = 1 then toString q.num
  else
    match findDecExp q.den with
    | some k =>
      let scaled := q.num.natAbs * ((10 ^ k) / q.den)
      let ip := scaled / 10 ^ k
      let fp := scaled % 10 ^ k
      (if q.num < 0 then "-" else "") ++ toString ip ++ "." ++ padZeros k (toString fp)
    | none => toString q.num ++ "/" ++ toString q.den

/-- Insertion into a list of rendered fields sorted by key, matching the
byte order Go uses when marshalling map keys (UTF-8 byte order equals
code point order). -/
def insertStrPair (p : String × String) : List (String × String) → List (String × String)
  | [] => [p]
  | q :: rest => if p.1 < q.1 then p :: q :: rest else q :: insertStrPair p rest

/-- Sort rendered fields by key. -/
def sortStrPairs : List (String × String) → List (String × String)
  | [] => []
  | p :: rest => insertStrPair p (sortStrPairs rest)

mutual

/-- Model of Go `json.Marshal` on a decoded value.  Object keys are
emitted in sorted key order, as `encoding/json` does for maps. -/
def jsonMarshal : Json → String
  | Json.null => "null"
  | Json.bool b => if b then "true" else "false"
  | Json.num q => formatGoNumber q
  | Json.str s => jsonQuote s
  | Json.arr xs => "[" ++ String.intercalate "," (marshalElems xs) ++ "]"
  | Json.obj kvs =>
    "\x7b" ++
      String.intercalate ","
        ((sortStrPairs (marshalFields kvs)).map (fun kv => jsonQuote kv.1 ++ ":" ++ kv.2)) ++
    "\x7d"

/-- Render array elements. -/
def marshalElems : List Json → List String
  | [] => []
  | j :: js => jsonMarshal j :: marshalElems js

/-- Render object fields to key / rendered-value pairs. -/
def marshalFields : List (String × Json) → List (String × String)
  | [] => []
  | kv :: rest => (kv.1, jsonMarshal kv.2) :: marshalFields rest

end

/-- `json.Marshal(logDoc)` for a whole document. -/
def jsonMarshalDoc (doc : Doc) : String :=
  jsonMarshal (Json.obj doc)

/-- Go `strings.ToLower`, modelled on the ASCII range (the documents the
claims quantify over and evaluate use ASCII level names). -/
def goToLower (s : String) : String :=
  String.mk (s.data.map Char.toLower)

/-! ## Calendar arithmetic, as in Go package time

Go `time.Parse` validates the civil fields and `Time.UnixNano` converts to
nanoseconds since the Unix epoch.  We compute days since the epoch from a
civil date with the standard era decomposition. -/

/-- Gregorian leap year, as `time.isLeap`. -/
def isLeapYear (y : Nat) : Bool :=
  y % 4 = 0 && (y % 100 ≠ 0 || y % 400 = 0)

/-- Length of a month, as Go `daysIn`. -/
def daysInMonth (y m : Nat) : Nat :=
  if m = 2 then (if isLeapYear y then 29 else 28)
  else if m = 4 ∨ m = 6 ∨ m = 9 ∨ m = 11 then 30
  else 31

/-- Days from 1970-01-01 to the civil date y-m-d (era decomposition with
floor division; months March..February map to 0..11 within a year that
starts in March). -/
def daysFromCivil (y m d : Nat) : Int :=
  let yAdj : Int := if m ≤ 2 then (y : Int) - 1 else (y : Int)
  let era : Int := Int.fdiv yAdj 400
  let yoe : Int := yAdj - era * 400
  let mp : Int := if m ≤ 2 then (m : Int) + 9 else (m : Int) - 3
  let doy : Int := Int.fdiv (153 * mp + 2) 5 + (d : Int) - 1
  let doe : Int := yoe * 365 + Int.fdiv yoe 4 - Int.fdiv yoe 100 + doy
  era * 146097 + doe - 719468

/-- Two's complement wraparound of Go int64 arithmetic. -/
def wrapInt64 (n : Int) : Int :=
  Int.emod (n + 2 ^ 63) (2 ^ 64) - 2 ^ 63

/-- `Time.UnixNano` of the instant whose civil fields in a zone of the
given offset (seconds east of UTC) are y-m-d h:mi:s plus nanos.  The
seconds value of any parseable date fits int64, but the multiplication
by 10^9 wraps int64 for instants outside roughly 1678..2262, exactly as
Go `UnixNano` does, so the whole nanosecond value is wrapped. -/
def unixNanosOf (y mo d h mi s nanos : Nat) (offsetSec : Int) : Int :=
  wrapInt64
    (((daysFromCivil y mo d) * 86400 + ((h * 3600 + mi * 60 + s : Nat) : Int) - offsetSec)
      * 1000000000 + (nanos : Nat))

/-! ## The two timestamp parsers used by pushLogToLoki

main.go lines 219 to 228: first `time.Parse("2006-01-02 15:04:05.000", s)`
and, when that fails, `time.Parse(time.RFC3339Nano, s)`.  Each parser is
modelled as a total function returning the `UnixNano` of the parsed
instant, `none` on a parse error.  `time.Parse` accepts a comma as well
as a dot before fractional seconds in both layouts, and for RFC3339Nano
its strict fast path falls back to the general layout engine, whose zone
offset ranges allow hour 24 and minute 60; the model follows that
effective behavior. -/

/-- Numeric value of a decimal digit character. -/
def dval (c : Char) : Nat := c.toNat - 48

/-- All characters are decimal digits. -/
def allDigits (cs : List Char) : Bool := cs.all Char.isDigit

/-- Civil field validation done by `time.Parse`: month 1..12, day within
the month, hour 0..23, minute and second 0..59. -/
def civilFieldsOk (y mo d h mi s : Nat) : Prop :=
  1 ≤ mo ∧ mo ≤ 12 ∧ 1 ≤ d ∧ d ≤ daysInMonth y mo ∧ h ≤ 23 ∧ mi ≤ 59 ∧ s ≤ 59

instance (y mo d h mi s : Nat) : Decidable (civilFieldsOk y mo d h mi s) := by
  unfold civilFieldsOk; infer_instance

/-- `time.Parse("2006-01-02 15:04:05.000", value)`: the layout fixes a
4 digit year, zero padded two digit fields, a space separator and exactly
three fractional digits after a dot or comma, with no zone, so the
result is taken in UTC.  Returns the `UnixNano` of the parsed time. -/
def parseGraylogTimestamp (v : String) : Option Int :=
  match v.data with
  | [y1, y2, y3, y4, a1, mo1, mo2, a2, d1, d2, sp, h1, h2, b1, mi1, mi2, b2, se1, se2, dot,
     f1, f2, f3] =>
    if a1 = '-' ∧ a2 = '-' ∧ sp = ' ' ∧ b1 = ':' ∧ b2 = ':' ∧ (dot = '.' ∨ dot = ',')
        ∧ allDigits [y1, y2, y3, y4, mo1, mo2, d1, d2, h1, h2, mi1, mi2, se1, se2, f1, f2, f3]
    then
      let y := ((dval y1 * 10 + dval y2) * 10 + dval y3) * 10 + dval y4
      let mo := dval mo1 * 10 + dval mo2
      let d := dval d1 * 10 + dval d2
      let h := dval h1 * 10 + dval h2
      let mi := dval mi1 * 10 + dval mi2
      let s := dval se1 * 10 + dval se2
      let ms := (dval f1 * 10 + dval f2) * 10 + dval f3
      if civilFieldsOk y mo d h mi s then
        some (unixNanosOf y mo d h mi s (ms * 1000000) 0)
      else none
    else none
  | _ => none

/-- Zone suffix of an RFC3339 timestamp: `Z` or a signed hh:mm offset,
with hour up to 24 and minute up to 60 as Go allows in its zone offset
range checks.  Returns the offset in seconds east of UTC. -/
def parseZone : List Char → Option Int
  | ['Z'] => some 0
  | [sgn, h1, h2, col, m1, m2] =>
    if (sgn = '+' ∨ sgn = '-') ∧ col = ':' ∧ allDigits [h1, h2, m1, m2] then
      let hh := dval h1 * 10 + dval h2
      let mm := dval m1 * 10 + dval m2
      if hh ≤ 24 ∧ mm ≤ 60 then
        let off : Int := ((hh * 3600 + mm * 60 : Nat) : Int)
        some (if sgn = '-' then -off else off)
      else none
    else none
  | _ => none

/-- Nanoseconds denoted by a fractional digit run: the first nine digits,
scaled; further digits are consumed and ignored, as Go does. -/
def nanosOfFrac (ds : List Char) : Nat :=
  let ds9 := ds.take 9
  (ds9.foldl (fun a c => a * 10 + dval c) 0) * 10 ^ (9 - ds9.length)

/-- Optional fractional seconds (a dot or comma followed by at least one
digit) then the zone.  Returns nanoseconds and the zone offset. -/
def parseFracZone : List Char → Option (Nat × Int)
  | c :: rest =>
    if c = '.' ∨ c = ',' then
      let p := rest.span Char.isDigit
      if p.1 = [] then none
      else (parseZone p.2).map (fun off => (nanosOfFrac p.1, off))
    else (parseZone (c :: rest)).map (fun off => ((0 : Nat), off))
  | [] => (parseZone []).map (fun off => ((0 : Nat), off))

/-- `time.Parse(time.RFC3339Nano, value)`: date, literal T, time, optional
fractional seconds, and a mandatory zone.  Returns the `UnixNano` of the
parsed instant (civil seconds minus the zone offset). -/
def parseRFC3339Nano (v : String) : Option Int :=
  match v.data with
  | y1 :: y2 :: y3 :: y4 :: a1 :: mo1 :: mo2 :: a2 :: d1 :: d2 :: tl :: h1 :: h2 :: b1 ::
      mi1 :: mi2 :: b2 :: se1 :: se2 :: rest =>
    if a1 = '-' ∧ a2 = '-' ∧ tl = 'T' ∧ b1 = ':' ∧ b2 = ':'
        ∧ allDigits [y1, y2, y3, y4, mo1, mo2, d1, d2, h1, h2, mi1, mi2, se1, se2]
    then
      let y := ((dval y1 * 10 + dval y2) * 10 + dval y3) * 10 + dval y4
      let mo := dval mo1 * 10 + dval mo2
      let d := dval d1 * 10 + dval d2
      let h := dval h1 * 10 + dval h2
      let mi := dval mi1 * 10 + dval mi2
      let s := dval se1 * 10 + dval se2
      if civilFieldsOk y mo d h mi s then
        (parseFracZone rest).map (fun nz => unixNanosOf y mo d h mi s nz.1 nz.2)
      else none
    else none
  | _ => none

/-! ## Document field access

Go type assertions `logDoc["k"].(string)` and `logDoc["k"].(float64)`:
lookup in the map, then a shape test. -/

/-- Map lookup, `logDoc["k"]`. -/
def lookupField (doc : Doc) (k : String) : Option Json :=
  (doc.find? (fun kv => kv.1 == k)).map (fun kv => kv.2)

/-- `logDoc["k"].(string)` with the ok flag: some s exactly when the field
is present and is a string. -/
def getStr (doc : Doc) (k : String) : Option String :=
  match lookupField doc k with
  | some (Json.str s) => some s
  | _ => none

/-- `logDoc["k"].(float64)` with the ok flag. -/
def getNum (doc : Doc) (k : String) : Option Rat :=
  match lookupField doc k with
  | some (Json.num q) => some q
  | _ => none

/-! ## Severity conversion and label construction (main.go 239..257, 297..318) -/

/-- `convertGraylogLevel` (main.go lines 297..318). -/
def convertGraylogLevel (level : Int) : String :=
  if level = 0 then "emergency"
  else if level = 1 then "alert"
  else if level = 2 then "critical"
  else if level = 3 then "error"
  else if level = 4 then "warning"
  else if level = 5 then "notice"
  else if level = 6 then "info"
  else if level = 7 then "debug"
  else "unknown"

/-- Go conversion `int(f)` of a float64: truncation toward zero. -/
def truncRat (q : Rat) : Int :=
  if q.num < 0 then -(((q.num.natAbs / q.den : Nat) : Int))
  else ((q.num.natAbs / q.den : Nat) : Int)

/-- The optional `app_name` label (main.go lines 245..247). -/
def optAppName (doc : Doc) : List (String × String) :=
  match getStr doc "app" with
  | some a => [("app_name", a)]
  | none => []

/-- The optional `log_level` label (main.go lines 249..253): a numeric
level is truncated to int and mapped through `convertGraylogLevel`, a
string level is lower cased. -/
def optLogLevel (doc : Doc) : List (String × String) :=
  match lookupField doc "level" with
  | some (Json.num q) => [("log_level", convertGraylogLevel (truncRat q))]
  | some (Json.str s) => [("log_level", goToLower s)]
  | _ => []

/-- The optional `host` label (main.go lines 255..257). -/
def optHost (doc : Doc) : List (String × String) :=
  match getStr doc "host" with
  | some h => [("host", h)]
  | none => []

/-- The label map built by `pushLogToLoki` (main.go lines 239..257): three
fixed labels then the conditional inserts.  Keys are pairwise distinct, so
the list models the Go map faithfully. -/
def buildLabels (doc : Doc) (openSearchIndex : String) : List (String × String) :=
  [("app", "graylog-forwarder"), ("source_index", openSearchIndex),
   ("data_origin", "historical")]
    ++ optAppName doc ++ optLogLevel doc ++ optHost doc

/-- Label lookup. -/
def lookupLabel (ls : List (String × String)) (k : String) : Option String :=
  (ls.find? (fun kv => kv.1 == k)).map (fun kv => kv.2)

/-! ## Normalization: pushLogToLoki up to the HTTP send (main.go 213..268) -/

/-- The per record failures of `pushLogToLoki` before the HTTP send. -/
inductive NormError where
  | badTimestampField
  | unparsableTimestamp
deriving DecidableEq

/-- The warnings `pushLogToLoki` logs while still producing a record. -/
inductive NormWarning where
  | rfc3339Fallback
  | messageFallback
deriving DecidableEq

/-- The delivery ready record: the stream entry
`[timestampNanos, message]` with its label set. -/
structure NormRecord where
  timestampNanos : String
  message : String
  labels : List (String × String)

/-- `pushLogToLoki` (main.go lines 213..268) up to the HTTP send: the
timestamp field must be a string and parse with the custom format or,
failing that, RFC3339Nano (each warning is recorded); a missing or non
string message falls back to the JSON serialization of the whole
document with a warning; labels per `buildLabels`.  `toString` on Int
is `strconv.FormatInt(i, 10)`. -/
def normalizeDoc (doc : Doc) (openSearchIndex : String) :
    Except NormError (NormRecord × List NormWarning) :=
  match getStr doc "timestamp" with
  | none => Except.error NormError.badTimestampField
  | some ts =>
    let parsed : Option (Int × List NormWarning) :=
      match parseGraylogTimestamp ts with
      | some n => some (n, [])
      | none =>
        match parseRFC3339Nano ts with
        | some n => some (n, [NormWarning.rfc3339Fallback])
        | none => none
    match parsed with
    | none => Except.error NormError.unparsableTimestamp
    | some (n, w1) =>
      let mw : String × List NormWarning :=
        match getStr doc "message" with
        | some m => (m, [])
        | none => (jsonMarshalDoc doc, [NormWarning.messageFallback])
      Except.ok
        ({ timestampNanos := toString n
           message := mw.1
           labels := buildLabels doc openSearchIndex }, w1 ++ mw.2)

/-! ## The cursor paginated extraction pipeline

`queryAndPushLogsParallel` (main.go lines 95..211) and the sequential
`queryAndPushLogs` plus its caller (second source file, lines 88..199) are
driven by the network.  We embed one run over a finite interaction trace:
a list of scripted responses, the first answering the initial search and
each following one answering the next scroll request.  Per section 6 of
the design, responses are JSON objects whose `hits` member, when present,
is an object with a `hits` array of hit objects; a hit whose `_source`
member is missing or not an object is a malformed hit. -/

/-- One element of `hits.hits`: either a well shaped hit carrying its
`_source` document, or a malformed one (missing or wrong shaped source). -/
inductive Hit where
  | good (doc : Doc)
  | malformed

/-- The document of a well shaped hit. -/
def Hit.sourceDoc : Hit → Option Doc
  | Hit.good d => some d
  | Hit.malformed => none

/-- Whether a hit is malformed. -/
def Hit.isBad : Hit → Bool
  | Hit.good _ => false
  | Hit.malformed => true

/-- The observable outcome of one search or scroll round trip.
`transportErr`: the request itself fails (`searchReq.Do` or
`scrollReq.Do` returns an error).  `apiErr ok`: `res.IsError()` holds,
with `ok` telling whether the error body decodes as JSON.  `decodeErr`:
the success body fails to decode.  `page hits sid`: a decoded body with
its hit list (a missing or non array `hits.hits` behaves as an empty
list) and its `_scroll_id` when present as a string. -/
inductive SearchResp where
  | transportErr
  | apiErr (bodyParses : Bool)
  | decodeErr
  | page (hits : List Hit) (sid : Option String)

/-- The fatal errors `queryAndPushLogsParallel` can return. -/
inductive FatalErr where
  | transport
  | apiBody
  | api
  | decode
  | missingScrollId
deriving DecidableEq

/-- State of the extraction loop: the `scrollID` variable, whether a non
empty scroll token was ever stored in it, the documents pushed to
`docChan` in order, the `processedCount` counter and the number of
malformed hit warnings logged. -/
structure ExtState where
  scrollID : String
  obtained : Bool
  emitted : List Doc
  count : Nat
  warnings : Nat

/-- Initial loop state. -/
def initExtState : ExtState := { scrollID := "", obtained := false, emitted := [], count := 0, warnings := 0 }

/-- Result of the extraction loop.  `scrollIDAtExit` is what the deferred
cleanup reads; the clear scroll request is issued exactly when it is non
empty. -/
structure ExtractResult where
  emitted : List Doc
  count : Nat
  warnings : Nat
  err : Option FatalErr
  scrollIDAtExit : String
  obtained : Bool

/-- Leave the loop with the given outcome. -/
def finish (st : ExtState) (e : Option FatalErr) : ExtractResult :=
  { emitted := st.emitted, count := st.count, warnings := st.warnings, err := e,
    scrollIDAtExit := st.scrollID, obtained := st.obtained }

/-- Whether the deferred cleanup of main.go lines 114..127 issues a clear
scroll request: exactly when the `scrollID` variable is non empty. -/
def clearScrollRequested (r : ExtractResult) : Bool :=
  r.scrollIDAtExit ≠ ""

/-- The inner hit loop (main.go lines 187..195): a malformed hit logs a
warning and is skipped; a good hit bumps `processedCount` and is sent to
`docChan`. -/
def hitsFold : List Hit → ExtState → ExtState
  | [], st => st
  | Hit.malformed :: hs, st => hitsFold hs { st with warnings := st.warnings + 1 }
  | Hit.good d :: hs, st =>
    let st1 := { st with emitted := st.emitted ++ [d] }
    hitsFold hs { st1 with count := st1.count + 1 }

/-- One iteration of the response loop (main.go lines 159..205) on the
response just received: error and decode checks, the empty hit list exit,
the scroll id reassignment and check, then the hit loop.  `inl` continues
with the next round trip, `inr` leaves the loop.  Note the scroll id
reassignment stores the empty string when the field is missing or not a
string, before the check fails. -/
def stepResp (r : SearchResp) (st : ExtState) : ExtState ⊕ ExtractResult :=
  match r with
  | SearchResp.transportErr => Sum.inr (finish st (some FatalErr.transport))
  | SearchResp.apiErr bodyParses =>
    Sum.inr (finish st (some (if bodyParses then FatalErr.api else FatalErr.apiBody)))
  | SearchResp.decodeErr => Sum.inr (finish st (some FatalErr.decode))
  | SearchResp.page hits sid =>
    if hits.isEmpty then Sum.inr (finish st none)
    else
      match sid with
      | none => Sum.inr (finish { st with scrollID := "" } (some FatalErr.missingScrollId))
      | some sv =>
        if sv = "" then
          Sum.inr (finish { st with scrollID := "" } (some FatalErr.missingScrollId))
        else
          Sum.inl (hitsFold hits { st with scrollID := sv, obtained := true })

/-- Run the response loop over the remaining scripted responses.  An
exhausted script means the next round trip got no answer, which surfaces
exactly like a transport failure of that request. -/
def extractFrom : List SearchResp → ExtState → ExtractResult
  | [], st => finish st (some FatalErr.transport)
  | r :: rest, st =>
    match stepResp r st with
    | Sum.inl st1 => extractFrom rest st1
    | Sum.inr res => res

/-- Run the loop after the given responses, stopping early: some state if
the loop is still going after consuming them all, none if it already
terminated. -/
def extractUpTo : List SearchResp → ExtState → Option ExtState
  | [], st => some st
  | r :: rest, st =>
    match stepResp r st with
    | Sum.inl st1 => extractUpTo rest st1
    | Sum.inr _ => none

/-- Whole run of `queryAndPushLogsParallel` extraction for a trace. -/
def runExtract (resps : List SearchResp) : ExtractResult :=
  extractFrom resps initExtState

/-- Observables of one run of the worker pool variant.  Delivery is an
explicit input: `deliver d` is whether `pushLogToLoki` succeeds on `d`.
On the success exit path the loop closes the channel and waits for the
pool, so every queued document is consumed by exactly one worker (in
queue order when there is one worker; with more, only the multiset is
determined) and each failed push is logged once.  On a fatal error exit
the function returns without closing the channel or waiting and the
caller exits the process, so which queued documents still get delivered
is not determined: `attempts` and `failuresLogged` list the whole queue
and are guaranteed by the program only on the success path, and the
theorems that rely on them restrict to it.  The count is reported
(main.go line 209) only when the loop exits without error. -/
structure ParRun where
  extract : ExtractResult
  attempts : List Doc
  failuresLogged : Nat
  reportedCount : Option Nat

/-- `queryAndPushLogsParallel` observables for one trace and one delivery
behavior. -/
def runParallel (resps : List SearchResp) (deliver : Doc → Bool) : ParRun :=
  let ext := runExtract resps
  { extract := ext
    attempts := ext.emitted
    failuresLogged := (ext.emitted.filter (fun d => !(deliver d))).length
    reportedCount := if ext.err = none then some ext.count else none }

/-! ## The sequential variant (second source file)

`queryAndPushLogs` takes a callback; `main` wraps `pushLogToLoki` in it,
returns an error on a failed push (aborting the extraction) and counts
only successful pushes. -/

/-- Outcome of the sequential variant: a fatal extraction error, or the
callback error wrapping a failed push. -/
inductive SeqErr where
  | fatal (e : FatalErr)
  | callbackFailed
deriving DecidableEq

/-- Observables of one sequential run: documents on which the callback
ran in order, `processedCount` of the caller, warnings, outcome, and the
scroll state at exit. -/
structure SeqRun where
  attempts : List Doc
  processedCount : Nat
  warnings : Nat
  err : Option SeqErr
  scrollIDAtExit : String
  obtained : Bool

/-- Leave the sequential loop. -/
def seqFinish (st : ExtState) (e : Option SeqErr) : SeqRun :=
  { attempts := st.emitted, processedCount := st.count, warnings := st.warnings, err := e,
    scrollIDAtExit := st.scrollID, obtained := st.obtained }

/-- The sequential hit loop (second file lines 177..186 with the callback
of lines 89..95): a malformed hit logs and skips; a good hit invokes the
callback, which aborts the whole extraction on a failed push and bumps
the count on success. -/
def seqHitsLoop (deliver : Doc → Bool) : List Hit → ExtState → ExtState ⊕ ExtState
  | [], st => Sum.inl st
  | Hit.malformed :: hs, st => seqHitsLoop deliver hs { st with warnings := st.warnings + 1 }
  | Hit.good d :: hs, st =>
    let st1 := { st with emitted := st.emitted ++ [d] }
    if deliver d then seqHitsLoop deliver hs { st1 with count := st1.count + 1 }
    else Sum.inr st1

/-- The sequential response loop (second file lines 149..196). -/
def seqExtractFrom (deliver : Doc → Bool) : List SearchResp → ExtState → SeqRun
  | [], st => seqFinish st (some (SeqErr.fatal FatalErr.transport))
  | r :: rest, st =>
    match r with
    | SearchResp.transportErr => seqFinish st (some (SeqErr.fatal FatalErr.transport))
    | SearchResp.apiErr bodyParses =>
      seqFinish st (some (SeqErr.fatal (if bodyParses then FatalErr.api else FatalErr.apiBody)))
    | SearchResp.decodeErr => seqFinish st (some (SeqErr.fatal FatalErr.decode))
    | SearchResp.page hits sid =>
      if hits.isEmpty then seqFinish st none
      else
        match sid with
        | none =>
          seqFinish { st with scrollID := "" } (some (SeqErr.fatal FatalErr.missingScrollId))
        | some sv =>
          if sv = "" then
            seqFinish { st with scrollID := "" } (some (SeqErr.fatal FatalErr.missingScrollId))
          else
            match seqHitsLoop deliver hits { st with scrollID := sv, obtained := true } with
            | Sum.inl st1 => seqExtractFrom deliver rest st1
            | Sum.inr st1 => seqFinish st1 (some SeqErr.callbackFailed)

/-- Whole run of the sequential variant. -/
def runSequential (resps : List SearchResp) (deliver : Doc → Bool) : SeqRun :=
  seqExtractFrom deliver resps initExtState

/-- The count line of the sequential `main` is only reached when
`queryAndPushLogs` returned no error (line 98 exits first otherwise). -/
def seqReportedCount (r : SeqRun) : Option Nat :=
  if r.err = none then some r.processedCount else none

/-- View of an extraction result as a sequential run, for stating that
the two variants agree. -/
def seqOfExtract (r : ExtractResult) : SeqRun :=
  { attempts := r.emitted, processedCount := r.count, warnings := r.warnings,
    err := r.err.map SeqErr.fatal, scrollIDAtExit := r.scrollIDAtExit, obtained := r.obtained }

/-! ## Concrete inputs used by counterexamples and witnesses -/

/-- A well formed document with a custom format timestamp. -/
def docA : Doc :=
  [("timestamp", Json.str "2024-02-14 20:30:55.410"), ("message", Json.str "hello")]

/-- A second well formed document. -/
def docB : Doc :=
  [("timestamp", Json.str "2024-02-14 20:30:56.000"), ("message", Json.str "world")]

/-- A trace delivering one document then ending normally. -/
def traceOneDoc : List SearchResp :=
  [SearchResp.page [Hit.good docA] (some "scroll-1"), SearchResp.page [] none]

/-- A trace whose second response returns a non empty hit list but no
scroll id. -/
def traceLostScroll : List SearchResp :=
  [SearchResp.page [Hit.good docA] (some "scroll-1"),
   SearchResp.page [Hit.good docB] none]

/-- Delivery that always fails, e.g. a push endpoint answering 500. -/
def deliverNever : Doc → Bool := fun _ => false

/-- Delivery that always succeeds. -/
def deliverAlways : Doc → Bool := fun _ => true

/-- The `timestampNanos` of a normalized document, when normalization
succeeds. -/
def normTimestampStr (doc : Doc) (idx : String) : Option String :=
  match normalizeDoc doc idx with
  | Except.ok rw => some rw.1.timestampNanos
  | Except.error _ => none

/-- The message body of a normalized document, when normalization
succeeds. -/
def normMessage (doc : Doc) (idx : String) : Option String :=
  match normalizeDoc doc idx with
  | Except.ok rw => some rw.1.message
  | Except.error _ => none

/-- The label set of a normalized document, when normalization
succeeds. -/
def normLabels (doc : Doc) (idx : String) : Option (List (String × String)) :=
  match normalizeDoc doc idx with
  | Except.ok rw => some rw.1.labels
  | Except.error _ => none

/-- The first page of the C3 witness trace. -/
def c3Pre : List SearchResp := [SearchResp.page [Hit.good docA] (some "scroll-1")]

/-- Loop state after the first page of the C3 witness trace. -/
def c3Mid : ExtState :=
  { scrollID := "scroll-1", obtained := true, emitted := [docA], count := 1, warnings := 0 }

/-- Document of the C6 example. -/
def c6Doc : Doc := [("timestamp", Json.str "2024-02-14 20:30:55.410")]

/-- Document used by the C7 witness: an integer numeric level. -/
def c7Doc : Doc :=
  [("timestamp", Json.str "2024-02-14 20:30:55.410"),
   ("level", Json.num ((3 : Int) : Rat))]

/-- Document used by the C8 witness: no message field. -/
def c8Doc : Doc :=
  [("timestamp", Json.str "2024-02-14 20:30:55.410"), ("host", Json.str "h1")]

/-- Document used by the C9 witness. -/
def c9Doc : Doc :=
  [("timestamp", Json.str "2024-02-14 20:30:55.410"),
   ("message", Json.str "m"), ("app", Json.str "svc"), ("host", Json.str "h1")]

/-- Document used by the C10 witness: a non integer numeric level. -/
def c10Doc : Doc := [("level", Json.num (mkRat 39 10))]

/-! ## Helper lemmas about the extraction loop -/

theorem hitsFold_spec (hits : List Hit) (st : ExtState) :
    (hitsFold hits st).emitted = st.emitted ++ hits.filterMap Hit.sourceDoc ∧
    (hitsFold hits st).count = st.count + (hits.filterMap Hit.sourceDoc).length ∧
    (hitsFold hits st).warnings = st.warnings + (hits.filter Hit.isBad).length ∧
    (hitsFold hits st).scrollID = st.scrollID ∧
    (hitsFold hits st).obtained = st.obtained := by
  induction hits generalizing st with
  | nil => simp [hitsFold]
  | cons h hs ih =>
    cases h with
    | malformed =>
      have := ih { st with warnings := st.warnings + 1 }
      simpa [hitsFold, Hit.sourceDoc, Hit.isBad, Nat.add_assoc, Nat.add_comm 1] using this
    | good d =>
      have := ih { st with emitted := st.emitted ++ [d], count := st.count + 1 }
      simpa [hitsFold, Hit.sourceDoc, Hit.isBad, List.append_assoc,
        Nat.add_assoc, Nat.add_comm 1] using this

theorem extractFrom_count_inv (resps : List SearchResp) (st : ExtState)
    (h : st.count = st.emitted.length) :
    (extractFrom resps st).count = (extractFrom resps st).emitted.length := by
  induction resps generalizing st with
  | nil => simpa [extractFrom, finish] using h
  | cons r rest ih =>
    cases r with
    | transportErr => simpa [extractFrom, stepResp, finish] using h
    | apiErr p => simpa [extractFrom, stepResp, finish] using h
    | decodeErr => simpa [extractFrom, stepResp, finish] using h
    | page hits sid =>
      by_cases he : hits.isEmpty
      · simpa [extractFrom, stepResp, he, finish] using h
      · cases sid with
        | none => simpa [extractFrom, stepResp, he, finish] using h
        | some sv =>
          by_cases hv : sv = ""
          · simpa [extractFrom, stepResp, he, hv, finish] using h
          · have hspec := hitsFold_spec hits { st with scrollID := sv, obtained := true }
            have hinv : (hitsFold hits { st with scrollID := sv, obtained := true }).count =
                (hitsFold hits { st with scrollID := sv, obtained := true }).emitted.length := by
              rw [hspec.1, hspec.2.1]
              simp [h]
            simpa [extractFrom, stepResp, he, hv] using ih _ hinv

theorem extractFrom_append (l1 l2 : List SearchResp) (st st1 : ExtState)
    (h : extractUpTo l1 st = some st1) :
    extractFrom (l1 ++ l2) st = extractFrom l2 st1 := by
  induction l1 generalizing st with
  | nil =>
    simp [extractUpTo] at h
    subst h
    simp
  | cons r rest ih =>
    unfold extractUpTo at h
    cases hs : stepResp r st with
    | inl st2 =>
      rw [hs] at h
      rw [List.cons_append, extractFrom, hs]
      exact ih st2 h
    | inr res => rw [hs] at h; cases h

theorem seqHitsLoop_all (deliver : Doc → Bool) (h : ∀ d, deliver d = true)
    (hits : List Hit) (st : ExtState) :
    seqHitsLoop deliver hits st = Sum.inl (hitsFold hits st) := by
  induction hits generalizing st with
  | nil => rfl
  | cons hh hs ih =>
    cases hh with
    | malformed =>
      rw [seqHitsLoop, hitsFold]
      exact ih _
    | good d =>
      rw [seqHitsLoop, hitsFold]
      simp only [h d, if_true]
      exact ih _

theorem seqExtract_eq_extract (deliver : Doc → Bool) (h : ∀ d, deliver d = true)
    (resps : List SearchResp) (st : ExtState) :
    seqExtractFrom deliver resps st = seqOfExtract (extractFrom resps st) := by
  induction resps generalizing st with
  | nil => rfl
  | cons r rest ih =>
    cases r with
    | transportErr => rfl
    | apiErr p => rfl
    | decodeErr => rfl
    | page hits sid =>
      by_cases he : hits.isEmpty
      · simp [seqExtractFrom, extractFrom, stepResp, he, seqOfExtract, seqFinish, finish]
      · cases sid with
        | none =>
          simp [seqExtractFrom, extractFrom, stepResp, he, seqOfExtract, seqFinish, finish]
        | some sv =>
          by_cases hv : sv = ""
          · simp [seqExtractFrom, extractFrom, stepResp, he, hv, seqOfExtract, seqFinish,
              finish]
          · simp only [seqExtractFrom, extractFrom, stepResp, he, hv, if_false,
              Bool.false_eq_true, seqHitsLoop_all deliver h]
            simpa using ih _

theorem truncRat_intCast (n : Int) : truncRat ((n : Int) : Rat) = n := by
  unfold truncRat
  rw [Rat.num_intCast, Rat.den_intCast]
  by_cases h : n < 0
  · rw [if_pos h]
    simp only [Nat.div_one]
    omega
  · rw [if_neg h]
    simp only [Nat.div_one]
    omega

theorem normalizeDoc_ok_labels (doc : Doc) (idx : String) (r : NormRecord)
    (w : List NormWarning) (h : normalizeDoc doc idx = Except.ok (r, w)) :
    r.labels = buildLabels doc idx := by
  unfold normalizeDoc at h
  split at h
  · cases h
  · dsimp only at h
    split at h
    · cases h
    · simp only [Except.ok.injEq, Prod.mk.injEq] at h
      rw [← h.1]

theorem lookupLabel_buildLabels_log_level (doc : Doc) (idx : String) :
    lookupLabel (buildLabels doc idx) "log_level" =
      (match lookupField doc "level" with
       | some (Json.num q) => some (convertGraylogLevel (truncRat q))
       | some (Json.str s) => some (goToLower s)
       | _ => none) := by
  unfold buildLabels optAppName optLogLevel optHost
  cases h1 : getStr doc "app" <;> cases h3 : getStr doc "host" <;>
    (cases h2 : lookupField doc "level" with
     | none => simp [lookupLabel, List.find?]
     | some j => cases j <;> simp [lookupLabel, List.find?])

/-! ## Claims -/

/-- Claim C1: in the worker pool variant, per document failures are
recoverable: the extraction outcome is the same whatever the delivery
results are (delivery failures are only logged, one per failing document,
and never abort the run); malformed hits are skipped with a warning and
cost no documents; and on success the reported processed count equals the
number of documents handed off to delivery, including those whose
delivery later fails. -/
theorem parallel_run_per_document_failures (resps : List SearchResp)
    (deliver deliver2 : Doc → Bool) :
    (runParallel resps deliver).extract = (runParallel resps deliver2).extract ∧
    ((runParallel resps deliver).extract.err = none →
      (runParallel resps deliver).reportedCount =
        some (runParallel resps deliver).attempts.length) ∧
    (runParallel resps deliver).failuresLogged =
      ((runParallel resps deliver).attempts.filter (fun d => !(deliver d))).length ∧
    (∀ hits st, (hitsFold hits st).emitted = st.emitted ++ hits.filterMap Hit.sourceDoc ∧
      (hitsFold hits st).warnings = st.warnings + (hits.filter Hit.isBad).length) := by
  refine ⟨rfl, ?_, rfl, ?_⟩
  · intro h
    have h2 : (runExtract resps).err = none := h
    have hc : (runExtract resps).count = (runExtract resps).emitted.length :=
      extractFrom_count_inv resps initExtState rfl
    show (if (runExtract resps).err = none then some (runExtract resps).count else none) =
      some (runExtract resps).emitted.length
    rw [if_pos h2, hc]
  · intro hits st
    exact ⟨(hitsFold_spec hits st).1, (hitsFold_spec hits st).2.2.1⟩

/-- Witness for C1 on a one page trace against a delivery endpoint that
always fails: extraction is unchanged, the reported count is the number
of handed off documents, and one failure is logged. -/
theorem parallel_run_per_document_failures_witness :
    (runParallel traceOneDoc deliverNever).extract =
      (runParallel traceOneDoc deliverAlways).extract ∧
    (runParallel traceOneDoc deliverNever).reportedCount =
      some (runParallel traceOneDoc deliverNever).attempts.length ∧
    (runParallel traceOneDoc deliverNever).failuresLogged = 1 :=
  ⟨(parallel_run_per_document_failures traceOneDoc deliverNever deliverAlways).1,
   (parallel_run_per_document_failures traceOneDoc deliverNever deliverAlways).2.1 rfl,
   by decide⟩

/-- Counterexample to claim C2 as stated: with one document and a
delivery that always fails, the sequential variant aborts with a callback
error and reports nothing (its count stayed 0), while the pool variant
with one worker finishes cleanly and reports one processed document. -/
theorem seq_vs_parallel_counterexample :
    (runSequential traceOneDoc deliverNever).err = some SeqErr.callbackFailed ∧
    (runParallel traceOneDoc deliverNever).extract.err = none ∧
    seqReportedCount (runSequential traceOneDoc deliverNever) = none ∧
    (runParallel traceOneDoc deliverNever).reportedCount = some 1 ∧
    (runSequential traceOneDoc deliverNever).processedCount = 0 := by
  refine ⟨rfl, rfl, rfl, rfl, rfl⟩

/-- Claim C2 (amended): on every source response sequence on which
extraction completes without a fatal error, and with every delivery
succeeding, the sequential callback variant computes the same observable
result as the worker pool variant with one worker: same delivery
attempts in order, same counts, warnings, scroll state and success
outcome, and the same reported count.  The restriction to error free
extraction matters: on a fatal exit the pool variant returns without
closing or draining the queue and the process exits, so delivery of the
queued documents is not guaranteed there. -/
theorem seq_agrees_with_parallel_when_delivery_succeeds (resps : List SearchResp)
    (deliver : Doc → Bool) (h : ∀ d, deliver d = true)
    (_hok : (runParallel resps deliver).extract.err = none) :
    runSequential resps deliver = seqOfExtract (runParallel resps deliver).extract ∧
    (runSequential resps deliver).attempts = (runParallel resps deliver).attempts ∧
    seqReportedCount (runSequential resps deliver) =
      (runParallel resps deliver).reportedCount := by
  have he : runSequential resps deliver = seqOfExtract (extractFrom resps initExtState) :=
    seqExtract_eq_extract deliver h resps initExtState
  refine ⟨he, by rw [he]; rfl, ?_⟩
  rw [he]
  show (if ((runExtract resps).err.map SeqErr.fatal) = none
      then some (runExtract resps).count else none) =
    (if (runExtract resps).err = none then some (runExtract resps).count else none)
  cases hr : (runExtract resps).err <;> simp

/-- Witness for the amended C2 on a concrete error free trace with a
delivery that always succeeds. -/
theorem seq_agrees_with_parallel_witness :
    (runSequential traceOneDoc deliverAlways =
      seqOfExtract (runParallel traceOneDoc deliverAlways).extract) ∧
    (runSequential traceOneDoc deliverAlways).attempts =
      (runParallel traceOneDoc deliverAlways).attempts ∧
    seqReportedCount (runSequential traceOneDoc deliverAlways) = some 1 :=
  ⟨(seq_agrees_with_parallel_when_delivery_succeeds traceOneDoc deliverAlways
      (fun _ => rfl) rfl).1,
   (seq_agrees_with_parallel_when_delivery_succeeds traceOneDoc deliverAlways
      (fun _ => rfl) rfl).2.1,
   by decide⟩

/-- Claim C3: whenever the loop reaches a page response whose hit list is
non empty but whose scroll id is missing or empty, extraction returns the
fatal missing scroll id error, and the emitted documents are exactly
those emitted before that page: nothing from that page or any later page
reaches the queue. -/
theorem missing_scroll_id_is_fatal (pre post : List SearchResp) (hits : List Hit)
    (sid : Option String) (st : ExtState)
    (hreach : extractUpTo pre initExtState = some st)
    (hne : hits ≠ [])
    (hbad : sid = none ∨ sid = some "") :
    (runExtract (pre ++ SearchResp.page hits sid :: post)).err =
      some FatalErr.missingScrollId ∧
    (runExtract (pre ++ SearchResp.page hits sid :: post)).emitted = st.emitted := by
  have hrun : runExtract (pre ++ SearchResp.page hits sid :: post) =
      extractFrom (SearchResp.page hits sid :: post) st :=
    extractFrom_append pre _ initExtState st hreach
  have hne2 : hits.isEmpty = false := by
    cases hits with
    | nil => cases hne rfl
    | cons a l => rfl
  have hstep : extractFrom (SearchResp.page hits sid :: post) st =
      finish { st with scrollID := "" } (some FatalErr.missingScrollId) := by
    rcases hbad with hb | hb <;> subst hb <;>
      simp [extractFrom, stepResp, hne2]
  rw [hrun, hstep]
  exact ⟨rfl, rfl⟩

/-- Witness for C3: after one good page, a page with one hit and no
scroll id aborts with the fatal error and only the first page document
was emitted. -/
theorem missing_scroll_id_is_fatal_witness :
    (runExtract (c3Pre ++ SearchResp.page [Hit.good docB] none :: [])).err =
      some FatalErr.missingScrollId ∧
    (runExtract (c3Pre ++ SearchResp.page [Hit.good docB] none :: [])).emitted =
      c3Mid.emitted :=
  missing_scroll_id_is_fatal c3Pre [] [Hit.good docB] none c3Mid rfl
    (by simp) (Or.inl rfl)

/-- Claim C4 is violated by the code: on the trace where the second page
returns hits but no scroll id, a scroll token was obtained on the first
page, yet the failed type assertion overwrites the `scrollID` variable
with the empty string before the function returns, so the deferred
cleanup issues no clear scroll request. -/
theorem lost_cursor_not_cleared :
    (runExtract traceLostScroll).obtained = true ∧
    (runExtract traceLostScroll).err = some FatalErr.missingScrollId ∧
    (runExtract traceLostScroll).scrollIDAtExit = "" ∧
    clearScrollRequested (runExtract traceLostScroll) = false := by
  refine ⟨rfl, rfl, rfl, by decide⟩

/-- Claim C6: the document whose timestamp is the string
2024-02-14 20:30:55.410 normalizes to the timestamp string
1707942655410000000, that instant in UTC in nanoseconds, exactly. -/
theorem example_timestamp_nanos :
    normTimestampStr c6Doc "idx" = some "1707942655410000000" := by
  rfl

/-- Claim C7: the log_level label of a normalized document comes from the
level field: an integer numeric level maps through the fixed severity
table (3 gives error, 99 gives unknown), a string level is lower cased
verbatim; and the record labels are exactly the built label set. -/
theorem log_level_label_mapping (doc : Doc) (idx : String) :
    (∀ r w, normalizeDoc doc idx = Except.ok (r, w) → r.labels = buildLabels doc idx) ∧
    (∀ n : Int, lookupField doc "level" = some (Json.num ((n : Int) : Rat)) →
      lookupLabel (buildLabels doc idx) "log_level" = some (convertGraylogLevel n)) ∧
    (∀ s : String, lookupField doc "level" = some (Json.str s) →
      lookupLabel (buildLabels doc idx) "log_level" = some (goToLower s)) ∧
    convertGraylogLevel 3 = "error" ∧ convertGraylogLevel 99 = "unknown" := by
  refine ⟨fun r w h => normalizeDoc_ok_labels doc idx r w h, ?_, ?_, rfl, rfl⟩
  · intro n hn
    rw [lookupLabel_buildLabels_log_level, hn]
    dsimp only
    rw [truncRat_intCast]
  · intro s hs
    rw [lookupLabel_buildLabels_log_level, hs]

/-- Witness for C7 on a document with integer numeric level 3. -/
theorem log_level_label_mapping_witness :
    lookupLabel (buildLabels c7Doc "i") "log_level" = some (convertGraylogLevel 3) ∧
    convertGraylogLevel 3 = "error" :=
  ⟨(log_level_label_mapping c7Doc "i").2.1 3 rfl, rfl⟩

/-- Claim C8: when the message field is absent or not a string and the
timestamp parses, normalization still succeeds, the message body is the
JSON serialization of the whole document, and the fallback warning is
logged. -/
theorem message_fallback_serializes_doc (doc : Doc) (idx ts : String)
    (hm : getStr doc "message" = none)
    (ht : getStr doc "timestamp" = some ts)
    (hp : parseGraylogTimestamp ts ≠ none ∨ parseRFC3339Nano ts ≠ none) :
    ∃ r w, normalizeDoc doc idx = Except.ok (r, w) ∧
      r.message = jsonMarshalDoc doc ∧ NormWarning.messageFallback ∈ w := by
  cases hp1 : parseGraylogTimestamp ts with
  | some n =>
    refine ⟨{ timestampNanos := toString n, message := jsonMarshalDoc doc,
              labels := buildLabels doc idx }, [NormWarning.messageFallback], ?_, rfl,
            by simp⟩
    simp [normalizeDoc, ht, hp1, hm]
  | none =>
    cases hp2 : parseRFC3339Nano ts with
    | some n =>
      refine ⟨{ timestampNanos := toString n, message := jsonMarshalDoc doc,
                labels := buildLabels doc idx },
              [NormWarning.rfc3339Fallback, NormWarning.messageFallback], ?_, rfl,
              by simp⟩
      simp [normalizeDoc, ht, hp1, hp2, hm]
    | none =>
      rcases hp with hp | hp
      · exact absurd hp1 hp
      · exact absurd hp2 hp

/-- Witness for C8 on a document without a message field. -/
theorem message_fallback_witness :
    normMessage c8Doc "i" = some (jsonMarshalDoc c8Doc) := by
  obtain ⟨r, w, hok, hmsg, hw⟩ :=
    message_fallback_serializes_doc c8Doc "i" "2024-02-14 20:30:55.410" rfl rfl
      (Or.inl (by decide))
  unfold normMessage
  rw [hok]
  dsimp only
  rw [hmsg]

/-- Claim C9: every normalized record carries the three fixed labels, its
label keys form a subset of the six possible ones, and each optional
label is present exactly when the corresponding source field has the
accepted shape. -/
theorem label_set_invariant (doc : Doc) (idx : String) (r : NormRecord)
    (w : List NormWarning) (hok : normalizeDoc doc idx = Except.ok (r, w)) :
    lookupLabel r.labels "app" = some "graylog-forwarder" ∧
    lookupLabel r.labels "source_index" = some idx ∧
    lookupLabel r.labels "data_origin" = some "historical" ∧
    List.Sublist (r.labels.map Prod.fst)
      ["app", "source_index", "data_origin", "app_name", "log_level", "host"] ∧
    ((∃ v, ("app_name", v) ∈ r.labels) ↔ (∃ a, getStr doc "app" = some a)) ∧
    ((∃ v, ("log_level", v) ∈ r.labels) ↔
      ((∃ q, lookupField doc "level" = some (Json.num q)) ∨
       (∃ s, lookupField doc "level" = some (Json.str s)))) ∧
    ((∃ v, ("host", v) ∈ r.labels) ↔ (∃ hv, getStr doc "host" = some hv)) := by
  have hl := normalizeDoc_ok_labels doc idx r w hok
  rw [hl]
  unfold buildLabels optAppName optLogLevel optHost
  cases h1 : getStr doc "app" <;> cases h3 : getStr doc "host" <;>
    (cases h2 : lookupField doc "level" with
     | none =>
       refine ⟨rfl, rfl, rfl, ?_, by simp, by simp, by simp⟩
       simp only [List.map_append, List.map_cons, List.map_nil]
       decide
     | some j =>
       cases j <;>
         (refine ⟨rfl, rfl, rfl, ?_, by simp, by simp, by simp⟩
          simp only [List.map_append, List.map_cons, List.map_nil]
          decide))

/-- Witness for C9: the three fixed labels of a concrete normalized
document. -/
theorem label_set_invariant_witness :
    Option.bind (normLabels c9Doc "idx9") (fun ls => lookupLabel ls "app") =
      some "graylog-forwarder" ∧
    Option.bind (normLabels c9Doc "idx9") (fun ls => lookupLabel ls "source_index") =
      some "idx9" ∧
    Option.bind (normLabels c9Doc "idx9") (fun ls => lookupLabel ls "data_origin") =
      some "historical" := by
  obtain ⟨h1, h2, h3, hrest⟩ := label_set_invariant c9Doc "idx9" _ _ rfl
  exact ⟨h1, h2, h3⟩

/-- Claim C10: a non integer numeric level is truncated toward zero
before the severity table lookup: 3.9 gives error, 7.9 gives debug,
and -0.5 gives emergency. -/
theorem level_truncates_toward_zero (doc : Doc) (idx : String) (q : Rat)
    (h : lookupField doc "level" = some (Json.num q)) :
    lookupLabel (buildLabels doc idx) "log_level" =
      some (convertGraylogLevel (truncRat q)) ∧
    convertGraylogLevel (truncRat (mkRat 39 10)) = "error" ∧
    convertGraylogLevel (truncRat (mkRat 79 10)) = "debug" ∧
    convertGraylogLevel (truncRat (mkRat (-1) 2)) = "emergency" := by
  refine ⟨?_, by decide, by decide, by decide⟩
  rw [lookupLabel_buildLabels_log_level, h]

/-- Witness for C10 on a document with level 3.9. -/
theorem level_truncates_toward_zero_witness :
    lookupLabel (buildLabels c10Doc "i") "log_level" =
      some (convertGraylogLevel (truncRat (mkRat 39 10))) ∧
    convertGraylogLevel (truncRat (mkRat 39 10)) = "error" :=
  ⟨(level_truncates_toward_zero c10Doc "i" (mkRat 39 10) rfl).1, by decide⟩

end Toki
